import Mathlib

/-!
Verification of the sheet candidate registry of the
League-of-Foundry-Developers/document-sheet-registrar module.

The registry lives in plain JavaScript objects:

* a bucket maps a candidate id to a sheet record
  (an object with fields id, label, default, cls),
* the sheetClasses table of a document type maps a sub-type string to a bucket,
* the global CONFIG maps a document-type name to its sheetClasses table.

JavaScript objects preserve key insertion order: assigning to a fresh key
appends it, assigning to an existing key updates the value in place, and
Object.values lists the values in that order.  We embed all three layers as
association lists with exactly that discipline.
-/

/-- A registered sheet candidate: the object built for
CONFIG[doc].sheetClasses[type][id] in the source, with fields
id, label, default and cls (the view class, kept as an opaque token). -/
structure SheetEntry where
  id : String
  label : String
  default : Bool
  cls : String
  deriving Repr, DecidableEq

/-- A bucket: the JavaScript object CONFIG[doc].sheetClasses[type],
mapping candidate id to its record, in insertion order. -/
abbrev Bucket := List (String × SheetEntry)

/-- The sheetClasses table of one document type, mapping sub-type to bucket. -/
abbrev SheetClasses := List (String × Bucket)

/-- The registry table: mapping document-type name to its sheetClasses table
(CONFIG restricted to the part this module reads and writes).  A name absent
from the list stands for a document type that is unknown to the table. -/
abbrev Config := List (String × SheetClasses)

/-- JavaScript object property read, obj[key]: the value stored at the key,
if present. -/
def getKey {α : Type} : List (String × α) → String → Option α
  | [], _ => none
  | (k, v) :: rest, key => if k = key then some v else getKey rest key

/-- JavaScript object property write, obj[key] = v: updates the value in
place when the key exists, otherwise appends the new key at the end. -/
def setKey {α : Type} : List (String × α) → String → α → List (String × α)
  | [], key, v => [(key, v)]
  | (k, w) :: rest, key, v =>
    if k = key then (key, v) :: rest else (k, w) :: setKey rest key v

/-- JavaScript property deletion, delete obj[key]. -/
def removeKey {α : Type} : List (String × α) → String → List (String × α)
  | [], _ => []
  | (k, v) :: rest, key =>
    if k = key then removeKey rest key else (k, v) :: removeKey rest key

/-- Object.values(obj): the stored values in key insertion order. -/
def objValues {α : Type} (l : List (String × α)) : List α :=
  l.map (fun p => p.2)

/-- The selection performed by `_getSheetClass`
(src/scripts/document-sheet-registrar.js lines 277-285, identical at lines
530-538, 955-968 and src/unnamed/part_000 lines 22-30): look up the bucket of
the requested sub-type (an empty object when missing), return the candidate
stored under the override id when that key is present, otherwise the first
candidate whose default flag is set (Array.prototype.find), otherwise the
last stored candidate (Array.prototype.pop on the values array).  The source
returns the cls field of this record; `_getSheetClass` below projects it. -/
def _getSheetEntry (sheetClasses : SheetClasses) (ty : String)
    (override : Option String) : Option SheetEntry :=
  let sheets : Bucket := (getKey sheetClasses ty).getD []
  match override.bind (fun o => getKey sheets o) with
  | some e => some e
  | none =>
    let classes := objValues sheets
    if classes.isEmpty then none
    else (classes.find? (fun s => s.default)).orElse (fun _ => classes.getLast?)

/-- `_getSheetClass` as in the source: the cls field of the selected record,
or null when the bucket is empty. -/
def _getSheetClass (sheetClasses : SheetClasses) (ty : String)
    (override : Option String) : Option String :=
  (_getSheetEntry sheetClasses ty override).map (fun e => e.cls)

/-- State-passing rendering of `_getSheetClass`: the registry table is
threaded through the call.  Object.values builds a fresh array, and the
classes.pop() of the fallback branch shortens only that local array (modelled
by dropLast on the local list), so the table component of the result is the
input table. -/
def _getSheetClassSt (sheetClasses : SheetClasses) (ty : String)
    (override : Option String) : Option String × SheetClasses :=
  let sheets : Bucket := (getKey sheetClasses ty).getD []
  match override.bind (fun o => getKey sheets o) with
  | some e => (some e.cls, sheetClasses)
  | none =>
    let classes := objValues sheets
    if classes.isEmpty then (none, sheetClasses)
    else
      match classes.find? (fun s => s.default) with
      | some e => (some e.cls, sheetClasses)
      | none =>
        let popped := classes.getLast?
        let _classes := classes.dropLast
        (popped.map (fun e => e.cls), sheetClasses)

/-- The arguments reaching the registerSheet wrapper
(src/scripts/document-sheet-registrar.js lines 639-652): the document class
reference contributes its documentName and its metadata types list (absent
when the class declares none), the options object contributes the optional
types list and the registration data of the candidate.  The host forms the
candidate id from scope and class name; we carry the resulting id. -/
structure RegisterArgs where
  documentName : String
  metadataTypes : Option (List String)
  optionsTypes : Option (List String)
  id : String
  label : String
  makeDefault : Bool
  cls : String
  deriving Repr, DecidableEq

/-- The candidate record built for a registration. -/
def mkEntry (args : RegisterArgs) : SheetEntry :=
  { id := args.id, label := args.label
    default := args.makeDefault, cls := args.cls }

/-- Line 643 of the source: options?.types, else classRef.metadata?.types,
else the single base type.  In JavaScript a present but empty array is
truthy, so a supplied empty list is kept. -/
def registerTypes (optionsTypes metadataTypes : Option (List String)) :
    List String :=
  ((optionsTypes.orElse (fun _ => metadataTypes)).getD ["base"])

/-- One iteration of the provisioning loop at lines 645-649: reads
CONFIG[doc].sheetClasses, which throws a TypeError when the document type is
unknown to the table, and otherwise creates an empty bucket for the sub-type
unless one already exists. -/
def provisionStep (cfg : Config) (docName ty : String) :
    Except String Config :=
  match getKey cfg docName with
  | none => Except.error "TypeError: sheetClasses of undefined"
  | some sc =>
    if (getKey sc ty).isSome then Except.ok cfg
    else Except.ok (setKey cfg docName (sc ++ [(ty, [])]))

/-- Insertion of one candidate into the bucket of each listed sub-type,
creating the bucket when it is missing. -/
def insertAll : SheetClasses → List String → SheetEntry → SheetClasses
  | sc, [], _ => sc
  | sc, ty :: rest, e =>
    insertAll (setKey sc ty (setKey ((getKey sc ty).getD []) e.id e)) rest e

/-- The provisioning for-loop of the registerSheet wrapper, one
`provisionStep` per listed sub-type, stopping at the first thrown error. -/
def provisionAll (docName : String) :
    Config → List String → Except String Config
  | cfg, [] => Except.ok cfg
  | cfg, ty :: rest =>
    match provisionStep cfg docName ty with
    | Except.error e => Except.error e
    | Except.ok cfg2 => provisionAll docName cfg2 rest

/-- Modelled from the spec: the wrapped host call
EntitySheetConfig.registerSheet is not part of this repository (the wrapper
at lines 639-652 ends in wrapped(...args)).  Per the spec, register "inserts
candidate into the bucket for each subtype listed" and fails silently when
the document type is unknown to the table.  The sub-type list of the
registration is the one the repository wrapper computes at line 643 and
provisions buckets for. -/
def coreRegisterSheet (cfg : Config) (docName : String) (types : List String)
    (e : SheetEntry) : Config :=
  match getKey cfg docName with
  | none => cfg
  | some sc => setKey cfg docName (insertAll sc types e)

/-- Modelled from the spec: EntitySheetConfig.unregisterSheet is host code
not under src (the repository method at src/scripts/document-sheet-registrar.js
lines 261-263 only delegates to it).  Per the spec, unregister "removes id
from each named bucket; no-op if absent". -/
def unregisterSheet (sc : SheetClasses) (sheetId : String)
    (types : List String) : SheetClasses :=
  types.foldl
    (fun acc ty =>
      match getKey acc ty with
      | none => acc
      | some b => setKey acc ty (removeKey b sheetId)) sc

/-- The full register operation: the repository wrapper
(src/scripts/document-sheet-registrar.js lines 639-652, identical at
src/unnamed/part_001 lines 109-122) computes the sub-type list, runs the
provisioning loop (which throws on an unknown document type), then calls the
wrapped host registration. -/
def registerSheet (cfg : Config) (args : RegisterArgs) :
    Except String Config :=
  let types := registerTypes args.optionsTypes args.metadataTypes
  match provisionAll args.documentName cfg types with
  | Except.error e => Except.error e
  | Except.ok cfg2 =>
    Except.ok (coreRegisterSheet cfg2 args.documentName types (mkEntry args))

/-- Whether an Except result is a success. -/
def isOk {ε α : Type} : Except ε α → Bool
  | Except.ok _ => true
  | Except.error _ => false

/-- The table produced by a successful register call (an empty table for the
error case, which carries no table). -/
def regOut (r : Except String Config) : Config :=
  match r with
  | Except.ok c => c
  | Except.error _ => []

/-- The per-candidate flag update of updateDefaultSheets
(src/scripts/document-sheet-registrar.js line 1003): every candidate of the
bucket gets default set exactly when its id field equals the requested id. -/
def markDefault (b : Bucket) (sheetId : String) : Bucket :=
  b.map (fun p => (p.1, { p.2 with default := p.2.id == sheetId }))

/-- The body of the per-type loop of updateDefaultSheets
(src/scripts/document-sheet-registrar.js lines 1000-1004) for one
(sub-type, sheetId) pair of the setting: take the values of the bucket of
that sub-type (an empty object when missing), look for a candidate whose id
is the requested one, and only when found flip the default flags of the
whole bucket in place. -/
def updateDefaultSheets1 (sc : SheetClasses) (ty sheetId : String) :
    SheetClasses :=
  match getKey sc ty with
  | none => sc
  | some b =>
    if ((objValues b).find? (fun s => s.id == sheetId)).isSome
    then setKey sc ty (markDefault b sheetId)
    else sc

example :
    _getSheetEntry [("base", [("A", ⟨"A", "A", false, "ClsA"⟩),
      ("B", ⟨"B", "B", true, "ClsB"⟩)])] "base" (some "nonexistent")
      = some ⟨"B", "B", true, "ClsB"⟩ := by decide

example :
    _getSheetEntry [("base", [("A", ⟨"A", "A", false, "ClsA"⟩),
      ("B", ⟨"B", "B", true, "ClsB"⟩)])] "base" (some "A")
      = some ⟨"A", "A", false, "ClsA"⟩ := by decide

example :
    _getSheetEntry [("script", [("A", ⟨"A", "A", false, "ClsA"⟩)])]
      "script" (some "zz") = some ⟨"A", "A", false, "ClsA"⟩ := by decide

example : _getSheetClass [] "base" (some "x") = none := by decide

example :
    isOk (registerSheet []
      { documentName := "Card", metadataTypes := none, optionsTypes := none
        id := "m.S", label := "S", makeDefault := false, cls := "C" })
      = false := by decide

example :
    regOut (registerSheet [("Macro", [("base", [])])]
      { documentName := "Macro", metadataTypes := some ["script", "chat"]
        optionsTypes := none, id := "m.S", label := "S", makeDefault := false
        cls := "C" })
      = [("Macro", [("base", []), ("script", [("m.S", ⟨"m.S", "S", false, "C"⟩)]),
          ("chat", [("m.S", ⟨"m.S", "S", false, "C"⟩)])])] := by decide

/-! ### Association-list lemmas -/

theorem getKey_setKey_self {α : Type} (l : List (String × α)) (k : String)
    (v : α) : getKey (setKey l k v) k = some v := by
  induction l with
  | nil => simp [setKey, getKey]
  | cons p rest ih =>
    obtain ⟨k1, w⟩ := p
    by_cases h : k1 = k
    · simp [setKey, h, getKey]
    · simp [setKey, h, getKey, ih]

theorem getKey_setKey_ne {α : Type} (l : List (String × α)) (k k' : String)
    (v : α) (h : k' ≠ k) : getKey (setKey l k v) k' = getKey l k' := by
  have hkk : ¬ k = k' := fun he => h he.symm
  induction l with
  | nil => simp [setKey, getKey, hkk]
  | cons p rest ih =>
    obtain ⟨k1, w⟩ := p
    by_cases h1 : k1 = k
    · subst h1
      simp [setKey, getKey, hkk]
    · simp [setKey, h1, getKey, ih]

theorem setKey_self {α : Type} (l : List (String × α)) (k : String) (v : α)
    (h : getKey l k = some v) : setKey l k v = l := by
  induction l with
  | nil => simp [getKey] at h
  | cons p rest ih =>
    obtain ⟨k1, w⟩ := p
    by_cases h1 : k1 = k
    · subst h1
      simp [getKey] at h
      simp [setKey, h]
    · simp [getKey, h1] at h
      simp [setKey, h1, ih h]

theorem mem_of_getKey {α : Type} (l : List (String × α)) (k : String) (v : α)
    (h : getKey l k = some v) : (k, v) ∈ l := by
  induction l with
  | nil => simp [getKey] at h
  | cons p rest ih =>
    obtain ⟨k1, w⟩ := p
    by_cases h1 : k1 = k
    · subst h1
      simp [getKey] at h
      simp [h]
    · simp [getKey, h1] at h
      exact List.mem_cons_of_mem _ (ih h)

theorem getKey_mem_values {α : Type} (l : List (String × α)) (k : String)
    (v : α) (h : getKey l k = some v) : v ∈ objValues l := by
  have := mem_of_getKey l k v h
  exact List.mem_map_of_mem (fun p => p.2) this

theorem getKey_removeKey_self {α : Type} (l : List (String × α))
    (k : String) : getKey (removeKey l k) k = none := by
  induction l with
  | nil => simp [removeKey, getKey]
  | cons p rest ih =>
    obtain ⟨k1, w⟩ := p
    by_cases h1 : k1 = k
    · simp [removeKey, h1, ih]
    · simp [removeKey, h1, getKey, ih]

theorem removeKey_absent {α : Type} (l : List (String × α)) (k : String)
    (h : getKey l k = none) : removeKey l k = l := by
  induction l with
  | nil => simp [removeKey]
  | cons p rest ih =>
    obtain ⟨k1, w⟩ := p
    by_cases h1 : k1 = k
    · simp [getKey, h1] at h
    · simp [getKey, h1] at h
      simp [removeKey, h1, ih h]

theorem mem_removeKey {α : Type} (l : List (String × α)) (k : String)
    (p : String × α) (h : p ∈ removeKey l k) : p ∈ l ∧ p.1 ≠ k := by
  induction l with
  | nil => simp [removeKey] at h
  | cons q rest ih =>
    obtain ⟨k1, w⟩ := q
    by_cases h1 : k1 = k
    · rw [removeKey, if_pos h1] at h
      exact ⟨List.mem_cons_of_mem _ (ih h).1, (ih h).2⟩
    · rw [removeKey, if_neg h1] at h
      rcases List.mem_cons.mp h with heq | hmem
      · subst heq
        exact ⟨List.mem_cons_self _ _, h1⟩
      · exact ⟨List.mem_cons_of_mem _ (ih hmem).1, (ih hmem).2⟩

theorem values_id_eq_keys (b : Bucket)
    (hwf : ∀ p ∈ b, (p.2).id = p.1) :
    (objValues b).map (fun e => e.id) = b.map (fun p => p.1) := by
  induction b with
  | nil => rfl
  | cons p rest ih =>
    simp only [objValues, List.map_cons]
    rw [hwf p (List.mem_cons_self _ _)]
    have := ih (fun q hq => hwf q (List.mem_cons_of_mem _ hq))
    simp only [objValues] at this
    rw [this]

theorem filter_key_length_one {α : Type} (f : α → String) (x : String) :
    ∀ l : List α, (l.map f).Nodup → (∃ a ∈ l, f a = x) →
      (l.filter (fun a => f a == x)).length = 1 := by
  intro l
  induction l with
  | nil => simp
  | cons a t ih =>
    intro hnd hex
    rw [List.map_cons, List.nodup_cons] at hnd
    by_cases hax : f a = x
    · have ht : t.filter (fun b => f b == x) = [] := by
        rw [List.filter_eq_nil_iff]
        intro b hb
        simp only [beq_iff_eq]
        intro hbx
        exact hnd.1 (by rw [hax, ← hbx]; exact List.mem_map_of_mem f hb)
      simp [List.filter_cons, hax, ht]
    · obtain ⟨c, hc, hfc⟩ := hex
      rcases List.mem_cons.mp hc with rfl | hct
      · exact absurd hfc hax
      · have := ih hnd.2 ⟨c, hct, hfc⟩
        simp [List.filter_cons, hax, this]

/-! ### Resolution lemmas -/

theorem getSheetEntry_mem (sc : SheetClasses) (ty : String)
    (o : Option String) (e : SheetEntry)
    (h : _getSheetEntry sc ty o = some e) :
    e ∈ objValues ((getKey sc ty).getD []) := by
  simp only [_getSheetEntry] at h
  split at h
  case h_1 e' heq =>
    obtain ⟨oo, hoo, hgk⟩ := Option.bind_eq_some.mp heq
    cases h
    exact getKey_mem_values _ _ _ hgk
  case h_2 heq =>
    split at h
    · exact absurd h (by simp)
    · rcases ho : (objValues ((getKey sc ty).getD [])).find?
          (fun s => s.default) with _ | x
      · rw [ho] at h
        simp only [Option.orElse] at h
        exact List.mem_of_mem_getLast? h
      · rw [ho] at h
        simp only [Option.orElse] at h
        cases h
        exact List.mem_of_find?_eq_some ho

/-- Claim C1: for a bucket hit by no candidate of the requested id and
non-empty, resolve returns the unique candidate whose default flag is set;
when no flag is set at all it returns the most recently registered (last
stored) candidate. -/
theorem resolve_fallback_default_or_last (sc : SheetClasses)
    (ty rid : String) (b : Bucket) (e : SheetEntry)
    (hb : getKey sc ty = some b) (hmiss : getKey b rid = none)
    (hne : b ≠ []) :
    ((e ∈ objValues b ∧ e.default = true ∧
        (∀ x ∈ objValues b, x.default = true → x = e)) →
      _getSheetEntry sc ty (some rid) = some e) ∧
    ((∀ x ∈ objValues b, x.default = false) →
      _getSheetEntry sc ty (some rid) = (objValues b).getLast? ∧
      (objValues b).getLast? ≠ none) := by
  have hnev : objValues b ≠ [] := by
    cases b with
    | nil => exact absurd rfl hne
    | cons p rest => simp [objValues]
  have hnemp : (objValues b).isEmpty = false := by
    cases hv : objValues b with
    | nil => exact absurd hv hnev
    | cons x xs => rfl
  have hres : _getSheetEntry sc ty (some rid)
      = ((objValues b).find? (fun s => s.default)).orElse
          (fun _ => (objValues b).getLast?) := by
    simp [_getSheetEntry, hb, hmiss, hnemp]
  constructor
  · rintro ⟨hmem, hdef, huniq⟩
    have hsome : ((objValues b).find? (fun s => s.default)).isSome :=
      List.find?_isSome.mpr ⟨e, hmem, hdef⟩
    obtain ⟨x, hx⟩ := Option.isSome_iff_exists.mp hsome
    have hxe : x = e :=
      huniq x (List.mem_of_find?_eq_some hx) (List.find?_some hx)
    rw [hres, hx, hxe]
    rfl
  · intro hall
    have hfind : (objValues b).find? (fun s => s.default) = none :=
      List.find?_eq_none.mpr (fun x hx => by simp [hall x hx])
    refine ⟨by rw [hres, hfind]; rfl, ?_⟩
    exact Option.isSome_iff_ne_none.mp (List.getLast?_isSome.mpr hnev)

def eW1A : SheetEntry := { id := "A", label := "A", default := false, cls := "ClsA" }

def eW1B : SheetEntry := { id := "B", label := "B", default := true, cls := "ClsB" }

def bW1 : Bucket := [("A", eW1A), ("B", eW1B)]

def scW1 : SheetClasses := [("base", bW1)]

theorem resolve_fallback_default_or_last_witness :
    _getSheetEntry scW1 "base" (some "nonexistent") = some eW1B :=
  (resolve_fallback_default_or_last scW1 "base" "nonexistent" bW1 eW1B
    (by decide) (by decide) (by decide)).1 (by decide)

/-- Claim C2: when the requested id names a candidate stored in the bucket
of the queried sub-type, resolve returns exactly that candidate, whatever
the default flags of the bucket are. -/
theorem resolve_requested_id_hit (sc : SheetClasses) (ty rid : String)
    (b : Bucket) (e : SheetEntry) (hb : getKey sc ty = some b)
    (hhit : getKey b rid = some e) :
    _getSheetEntry sc ty (some rid) = some e := by
  simp [_getSheetEntry, hb, hhit]

theorem resolve_requested_id_hit_witness :
    _getSheetEntry scW1 "base" (some "A") = some eW1A :=
  resolve_requested_id_hit scW1 "base" "A" bW1 eW1A (by decide) (by decide)

/-- Claim C3: whenever resolve returns a candidate rather than the
not-found signal, that candidate is stored in the bucket of the queried
(document-type, sub-type) pair. -/
theorem resolve_member_of_bucket (sc : SheetClasses) (ty : String)
    (o : Option String) (e : SheetEntry)
    (h : _getSheetEntry sc ty o = some e) :
    e ∈ objValues ((getKey sc ty).getD []) :=
  getSheetEntry_mem sc ty o e h

def eW3 : SheetEntry := { id := "A", label := "A", default := false, cls := "ClsA" }

def scW3 : SheetClasses := [("script", [("A", eW3)])]

theorem resolve_member_of_bucket_witness :
    eW3 ∈ objValues ((getKey scW3 "script").getD []) :=
  resolve_member_of_bucket scW3 "script" (some "zz") eW3 (by decide)

def eC4A : SheetEntry := { id := "A", label := "A", default := true, cls := "ClsA" }

def eC4B : SheetEntry := { id := "B", label := "B", default := true, cls := "ClsB" }

def bC4 : Bucket := [("A", eC4A), ("B", eC4B)]

def scC4 : SheetClasses := [("base", bC4)]

/-- Claim C4, counterexample: in a bucket whose two candidates are both
marked default, resolve with a non-matching requested id returns the first
registered flagged candidate A, not the most recently registered candidate
B as the claim states. -/
theorem resolve_many_defaults_last_cex :
    _getSheetEntry scC4 "base" (some "nomatch") = some eC4A ∧
    (objValues ((getKey scC4 "base").getD [])).getLast? = some eC4B ∧
    eC4A ≠ eC4B := by decide

/-- Claim C4, amended: in a bucket where two or more candidates are marked
default, resolve with a non-matching requested id returns the first
registered candidate whose default flag is set (Array.prototype.find); the
last-registered fallback applies only when no candidate is flagged. -/
theorem resolve_many_defaults_first_flagged (sc : SheetClasses)
    (ty rid : String) (b : Bucket) (hb : getKey sc ty = some b)
    (hmiss : getKey b rid = none)
    (hmany : 2 ≤ ((objValues b).filter (fun s => s.default)).length) :
    _getSheetEntry sc ty (some rid)
      = (objValues b).find? (fun s => s.default) ∧
    ((objValues b).find? (fun s => s.default)).isSome = true := by
  have hfne : (objValues b).filter (fun s => s.default) ≠ [] := by
    intro hnil
    rw [hnil] at hmany
    simp at hmany
  have hex : ∃ x ∈ objValues b, (fun s => s.default) x = true := by
    cases hf : (objValues b).filter (fun s => s.default) with
    | nil => exact absurd hf hfne
    | cons x xs =>
      have hx : x ∈ (objValues b).filter (fun s => s.default) := by
        rw [hf]; exact List.mem_cons_self _ _
      exact ⟨x, List.mem_of_mem_filter hx, List.of_mem_filter hx⟩
  have hnev : objValues b ≠ [] := by
    obtain ⟨x, hx, _⟩ := hex
    intro hnil
    rw [hnil] at hx
    exact absurd hx (List.not_mem_nil x)
  have hnemp : (objValues b).isEmpty = false := by
    cases hv : objValues b with
    | nil => exact absurd hv hnev
    | cons x xs => rfl
  have hsome : ((objValues b).find? (fun s => s.default)).isSome :=
    List.find?_isSome.mpr hex
  obtain ⟨x, hx⟩ := Option.isSome_iff_exists.mp hsome
  refine ⟨?_, hsome⟩
  simp [_getSheetEntry, hb, hmiss, hnemp, hx]

theorem resolve_many_defaults_first_flagged_witness :
    _getSheetEntry scC4 "base" (some "nomatch")
      = (objValues bC4).find? (fun s => s.default) :=
  (resolve_many_defaults_first_flagged scC4 "base" "nomatch" bC4
    (by decide) (by decide) (by decide)).1

/-- Claim C6: a query against an empty (or never-provisioned) bucket yields
the not-found signal null; the selection is a total function here, matching
the early return of the source, and no exception path exists. -/
theorem resolve_empty_bucket_none (sc : SheetClasses) (ty : String)
    (o : Option String) (hempty : (getKey sc ty).getD [] = ([] : Bucket)) :
    _getSheetClass sc ty o = none := by
  cases o with
  | none => simp [_getSheetClass, _getSheetEntry, hempty, objValues]
  | some rid => simp [_getSheetClass, _getSheetEntry, hempty, getKey, objValues]

theorem resolve_empty_bucket_none_witness :
    _getSheetClass [("base", ([] : Bucket))] "base" (some "x") = none :=
  resolve_empty_bucket_none [("base", ([] : Bucket))] "base" (some "x")
    (by decide)

/-! ### Registration lemmas -/

/-- Claim C5, amended: a register call whose document type is unknown to
the registry table does not in general fail silently: whenever the computed
sub-type list of line 643 (options types, else declared metadata types,
else the single base type) is non-empty, the first provisioning iteration
reads the sheetClasses table of the unknown document type and throws a
TypeError, producing no updated table.  The list is empty only when the
caller or the class supplies a present but empty types array (truthy in
JavaScript, so kept by the chain); in that one case the loop runs zero
iterations and the call stays silent, as for a known document type. -/
theorem register_unknown_type_raises (cfg : Config) (args : RegisterArgs)
    (hunknown : getKey cfg args.documentName = none)
    (hne : registerTypes args.optionsTypes args.metadataTypes ≠ []) :
    isOk (registerSheet cfg args) = false := by
  cases htypes : registerTypes args.optionsTypes args.metadataTypes with
  | nil => exact absurd htypes hne
  | cons t rest =>
    have hstep : provisionStep cfg args.documentName t
        = Except.error "TypeError: sheetClasses of undefined" := by
      simp [provisionStep, hunknown]
    simp [registerSheet, htypes, provisionAll, hstep, isOk]

def argsC5 : RegisterArgs :=
  { documentName := "Card", metadataTypes := none, optionsTypes := none
    id := "m.S", label := "S", makeDefault := false, cls := "C" }

/-- Claim C5, counterexample: registering against the document type Card,
unknown to an empty registry table, does not succeed silently: the call
ends in a thrown TypeError. -/
theorem register_unknown_type_silent_cex :
    isOk (registerSheet ([] : Config) argsC5) = false := by decide

theorem register_unknown_type_raises_witness :
    getKey ([] : Config) argsC5.documentName = none ∧
    isOk (registerSheet ([] : Config) argsC5) = false :=
  ⟨rfl, register_unknown_type_raises ([] : Config) argsC5 rfl (by decide)⟩

theorem provisionAll_ok (docName : String) :
    ∀ (types : List String) (cfg : Config), (getKey cfg docName).isSome →
      ∃ cfg2, provisionAll docName cfg types = Except.ok cfg2 ∧
        (getKey cfg2 docName).isSome := by
  intro types
  induction types with
  | nil => exact fun cfg h => ⟨cfg, rfl, h⟩
  | cons t rest ih =>
    intro cfg h
    obtain ⟨sc, hsc⟩ := Option.isSome_iff_exists.mp h
    by_cases hbucket : (getKey sc t).isSome
    · have hstep : provisionStep cfg docName t = Except.ok cfg := by
        simp [provisionStep, hsc, hbucket]
      obtain ⟨cfg2, h1, h2⟩ := ih cfg h
      exact ⟨cfg2, by rw [provisionAll, hstep]; exact h1, h2⟩
    · have hstep : provisionStep cfg docName t
          = Except.ok (setKey cfg docName (sc ++ [(t, [])])) := by
        simp [provisionStep, hsc, hbucket]
      have hsome : (getKey (setKey cfg docName (sc ++ [(t, [])])) docName).isSome := by
        rw [getKey_setKey_self]
        rfl
      obtain ⟨cfg2, h1, h2⟩ := ih _ hsome
      exact ⟨cfg2, by rw [provisionAll, hstep]; exact h1, h2⟩

theorem insertAll_keeps (e : SheetEntry) :
    ∀ (types : List String) (sc : SheetClasses) (ty : String),
      getKey ((getKey sc ty).getD []) e.id = some e →
      getKey ((getKey (insertAll sc types e) ty).getD []) e.id = some e := by
  intro types
  induction types with
  | nil => exact fun sc ty h => h
  | cons t rest ih =>
    intro sc ty h
    rw [insertAll]
    apply ih
    by_cases hty : ty = t
    · subst hty
      rw [getKey_setKey_self]
      simp [getKey_setKey_self]
    · rw [getKey_setKey_ne _ _ _ _ hty]
      exact h

theorem insertAll_mem (e : SheetEntry) :
    ∀ (types : List String) (sc : SheetClasses) (ty : String), ty ∈ types →
      getKey ((getKey (insertAll sc types e) ty).getD []) e.id = some e := by
  intro types
  induction types with
  | nil => intro sc ty h; exact absurd h (List.not_mem_nil ty)
  | cons t rest ih =>
    intro sc ty hmem
    by_cases h : ty ∈ rest
    · rw [insertAll]
      exact ih _ ty h
    · have hty : ty = t := by
        rcases List.mem_cons.mp hmem with heq | hrest
        · exact heq
        · exact absurd hrest h
      subst hty
      rw [insertAll]
      apply insertAll_keeps
      rw [getKey_setKey_self]
      simp [getKey_setKey_self]

/-- Claim C8, amended: for a register call that supplies no subtypes list,
the sub-type list of the registration defaults to the metadata types
declared by the document class, and to the single implicit base sub-type
only when the class declares none; the candidate is inserted into the
bucket of each sub-type of that list. -/
theorem register_no_types_uses_metadata (cfg : Config) (args : RegisterArgs)
    (hknown : (getKey cfg args.documentName).isSome)
    (hopt : args.optionsTypes = none)
    (ty : String) (hty : ty ∈ args.metadataTypes.getD ["base"]) :
    isOk (registerSheet cfg args) = true ∧
    getKey ((getKey ((getKey (regOut (registerSheet cfg args))
        args.documentName).getD []) ty).getD []) args.id
      = some (mkEntry args) := by
  have htypes : registerTypes args.optionsTypes args.metadataTypes
      = args.metadataTypes.getD ["base"] := by
    rw [hopt]
    cases args.metadataTypes <;> rfl
  obtain ⟨cfg2, hfold, hsome2⟩ :=
    provisionAll_ok args.documentName
      (registerTypes args.optionsTypes args.metadataTypes) cfg hknown
  obtain ⟨sc2, hsc2⟩ := Option.isSome_iff_exists.mp hsome2
  have hreg : registerSheet cfg args
      = Except.ok (setKey cfg2 args.documentName
          (insertAll sc2 (registerTypes args.optionsTypes args.metadataTypes)
            (mkEntry args))) := by
    simp [registerSheet, hfold, coreRegisterSheet, hsc2]
  refine ⟨by rw [hreg]; rfl, ?_⟩
  rw [hreg]
  simp only [regOut, getKey_setKey_self, Option.getD_some]
  have hid : (mkEntry args).id = args.id := rfl
  rw [← hid]
  exact insertAll_mem (mkEntry args) _ sc2 ty (htypes ▸ hty)

def cfgC8 : Config := [("Macro", [("base", ([] : Bucket))])]

def argsC8 : RegisterArgs :=
  { documentName := "Macro", metadataTypes := some ["script", "chat"]
    optionsTypes := none, id := "m.S", label := "S", makeDefault := false
    cls := "C" }

/-- Claim C8, counterexample: a register call with no subtypes list against
a document class declaring the metadata types script and chat inserts the
candidate into the script and chat buckets and not into the base bucket, so
the candidate is not inserted into exactly the single implicit base
bucket. -/
theorem register_no_types_base_cex :
    isOk (registerSheet cfgC8 argsC8) = true ∧
    getKey ((getKey ((getKey (regOut (registerSheet cfgC8 argsC8))
        "Macro").getD []) "base").getD []) "m.S" = none ∧
    getKey ((getKey ((getKey (regOut (registerSheet cfgC8 argsC8))
        "Macro").getD []) "script").getD []) "m.S" = some (mkEntry argsC8) ∧
    getKey ((getKey ((getKey (regOut (registerSheet cfgC8 argsC8))
        "Macro").getD []) "chat").getD []) "m.S" = some (mkEntry argsC8) := by
  decide

theorem register_no_types_uses_metadata_witness :
    isOk (registerSheet cfgC8 argsC8) = true ∧
    getKey ((getKey ((getKey (regOut (registerSheet cfgC8 argsC8))
        argsC8.documentName).getD []) "script").getD []) argsC8.id
      = some (mkEntry argsC8) :=
  register_no_types_uses_metadata cfgC8 argsC8 (by decide) rfl
    "script" (by decide)

/-! ### Unregistration and default-selection lemmas -/

/-- Claim C9: after unregister removes an id from the bucket, resolving
with that id as requested id never returns the removed candidate (under the
bucket well-formedness maintained by registration, every record is stored
under its own id): the resolution equals the one with no override at all and
falls back to the first flagged default of the remaining candidates, or
failing that the most recently registered remaining candidate; and
unregister of an absent id is a no-op. -/
theorem unregister_then_resolve_fallback (sc : SheetClasses)
    (ty rid rid2 : String) (b : Bucket) (hb : getKey sc ty = some b)
    (hwf : ∀ p ∈ b, (p.2).id = p.1) :
    getKey (unregisterSheet sc rid [ty]) ty = some (removeKey b rid) ∧
    (∀ e, _getSheetEntry (unregisterSheet sc rid [ty]) ty (some rid)
        = some e → e.id ≠ rid) ∧
    _getSheetEntry (unregisterSheet sc rid [ty]) ty (some rid)
      = _getSheetEntry (unregisterSheet sc rid [ty]) ty none ∧
    (getKey b rid2 = none → unregisterSheet sc rid2 [ty] = sc) := by
  have hsc' : unregisterSheet sc rid [ty]
      = setKey sc ty (removeKey b rid) := by
    simp [unregisterSheet, hb]
  have hgot : getKey (unregisterSheet sc rid [ty]) ty
      = some (removeKey b rid) := by
    rw [hsc', getKey_setKey_self]
  have hmiss : getKey (removeKey b rid) rid = none :=
    getKey_removeKey_self b rid
  refine ⟨hgot, ?_, ?_, ?_⟩
  · intro e he
    have hm := getSheetEntry_mem _ _ _ _ he
    rw [hgot] at hm
    simp only [Option.getD_some] at hm
    obtain ⟨p, hp, hpe⟩ := List.mem_map.mp hm
    obtain ⟨hpb, hpk⟩ := mem_removeKey b rid p hp
    rw [← hpe, hwf p hpb]
    exact hpk
  · simp [_getSheetEntry, hgot, hmiss]
  · intro h2
    simp [unregisterSheet, hb, removeKey_absent b rid2 h2,
      setKey_self sc ty b hb]

def eW9A : SheetEntry := { id := "A", label := "A", default := false, cls := "ClsA" }

def eW9B : SheetEntry := { id := "B", label := "B", default := false, cls := "ClsB" }

def bW9 : Bucket := [("A", eW9A), ("B", eW9B)]

def scW9 : SheetClasses := [("base", bW9)]

theorem unregister_then_resolve_fallback_witness :
    getKey (unregisterSheet scW9 "A" ["base"]) "base"
      = some (removeKey bW9 "A") :=
  (unregister_then_resolve_fallback scW9 "base" "A" "Q" bW9
    (by decide) (by decide)).1

/-- Claim C7: setting the default candidate of a bucket through
updateDefaultSheets flips the default flag of every candidate of that
bucket to whether its id is the requested one, so exactly one candidate
ends up flagged, namely the candidate named by the id (assuming the bucket
well-formedness maintained by registration: records stored under their own
id, keys unique, and the named candidate present). -/
theorem setDefault_unique_default (sc : SheetClasses) (ty sheetId : String)
    (b : Bucket) (hb : getKey sc ty = some b)
    (hwf : ∀ p ∈ b, (p.2).id = p.1)
    (hnd : (b.map (fun p => p.1)).Nodup)
    (hmem : (getKey b sheetId).isSome) :
    getKey (updateDefaultSheets1 sc ty sheetId) ty
      = some (markDefault b sheetId) ∧
    ((objValues (markDefault b sheetId)).filter
        (fun e => e.default)).length = 1 ∧
    (∀ e ∈ objValues (markDefault b sheetId),
      (e.default = true ↔ e.id = sheetId)) := by
  obtain ⟨r, hr⟩ := Option.isSome_iff_exists.mp hmem
  have hrmem : (sheetId, r) ∈ b := mem_of_getKey b sheetId r hr
  have hrid : r.id = sheetId := hwf _ hrmem
  have hrv : r ∈ objValues b := getKey_mem_values b sheetId r hr
  have hfind : ((objValues b).find? (fun s => s.id == sheetId)).isSome :=
    List.find?_isSome.mpr ⟨r, hrv, by simp [hrid]⟩
  have hv : objValues (markDefault b sheetId)
      = (objValues b).map
          (fun e => { e with default := e.id == sheetId }) := by
    simp [markDefault, objValues, List.map_map]
  have hids : ((objValues b).map (fun e => e.id)).Nodup := by
    rw [values_id_eq_keys b hwf]
    exact hnd
  refine ⟨?_, ?_, ?_⟩
  · simp [updateDefaultSheets1, hb, hfind, getKey_setKey_self]
  · rw [hv, List.filter_map]
    rw [List.length_map]
    have hpred : ((fun e : SheetEntry => e.default) ∘
        (fun e : SheetEntry => { e with default := e.id == sheetId }))
        = (fun e : SheetEntry => e.id == sheetId) := rfl
    rw [hpred]
    exact filter_key_length_one (fun e => e.id) sheetId (objValues b)
      hids ⟨r, hrv, hrid⟩
  · intro e he
    rw [hv] at he
    obtain ⟨a, ha, hae⟩ := List.mem_map.mp he
    subst hae
    simp

def eW7A : SheetEntry := { id := "A", label := "A", default := false, cls := "ClsA" }

def eW7B : SheetEntry := { id := "B", label := "B", default := true, cls := "ClsB" }

def bW7 : Bucket := [("A", eW7A), ("B", eW7B)]

def scW7 : SheetClasses := [("base", bW7)]

theorem setDefault_unique_default_witness :
    ((objValues (markDefault bW7 "A")).filter
        (fun e => e.default)).length = 1 :=
  (setDefault_unique_default scW7 "base" "A" bW7
    (by decide) (by decide) (by decide) (by decide)).2.1

/-! ### Frame property of resolution -/

/-- Claim C10: a resolve call leaves the registry table unchanged: the
last-registered fallback pops from the fresh array built by Object.values,
so in the state-passing rendering the output table equals the input table
while the returned value agrees with the direct rendering of
_getSheetClass. -/
theorem resolve_preserves_table (sc : SheetClasses) (ty : String)
    (o : Option String) :
    (_getSheetClassSt sc ty o).2 = sc ∧
    (_getSheetClassSt sc ty o).1 = _getSheetClass sc ty o := by
  cases hbind : o.bind (fun oo => getKey ((getKey sc ty).getD []) oo) with
  | some e =>
    constructor <;>
      simp [_getSheetClassSt, _getSheetClass, _getSheetEntry, hbind]
  | none =>
    cases hemp : (objValues ((getKey sc ty).getD [])).isEmpty with
    | true =>
      constructor <;>
        simp [_getSheetClassSt, _getSheetClass, _getSheetEntry, hbind, hemp]
    | false =>
      cases hf : (objValues ((getKey sc ty).getD [])).find?
          (fun s => s.default) with
      | some e =>
        constructor <;>
          simp [_getSheetClassSt, _getSheetClass, _getSheetEntry,
            hbind, hemp, hf]
      | none =>
        constructor <;>
          simp [_getSheetClassSt, _getSheetClass, _getSheetEntry,
            hbind, hemp, hf, Option.orElse]
